import Mathlib

/-!
Shallow embedding of the `time` crate (src/lib.rs): absolute-time
(`Timespec`) arithmetic, broken-down time (`Tm`), the strftime render
helpers, format-string validation, and the strptime matcher.

Modelling conventions:
* Rust `i32` / `i64` values are modelled as `Int`; the computations the
  verified claims exercise stay far from the 32/64-bit overflow
  boundaries, so no wrap-around modelling is needed.
* Strings are modelled as `List Char`.  `strptime` reads the format
  string byte-by-byte in the source; on ASCII format strings (the whole
  specifier language is ASCII) this coincides with char-by-char reading.
* Rust's truncating `/` and `%` on possibly-negative integers are
  `Int.tdiv` / `Int.tmod`; divisions whose operands are provably
  non-negative are done in `Nat`.
* Rust `panic!` / out-of-bounds `char_range_at` is modelled by an
  explicit `crash` outcome, and `assert!` by an `Option` result.
-/

namespace TimeSpec2Proof

/-- Constant `NSEC_PER_SEC` from lib.rs line 38. -/
def NSEC_PER_SEC : Int := 1000000000

/-- Structure `Timespec` (lib.rs lines 78-95): seconds and nanoseconds. -/
structure Timespec where
  sec : Int
  nsec : Int
deriving DecidableEq, Repr

/-- Function `Timespec::new` (lib.rs lines 91-94).  The `assert!` that
`0 <= nsec < NSEC_PER_SEC` is modelled by returning `none` (a panic)
when it fails. -/
def Timespec.new (sec nsec : Int) : Option Timespec :=
  if 0 ≤ nsec ∧ nsec < NSEC_PER_SEC then some ⟨sec, nsec⟩ else none

/-- Function `impl Add<Duration> for Timespec` (lib.rs lines 97-117).
The `Duration` argument is modelled by its total number of nanoseconds
`other`; `num_seconds()` truncates toward zero, and the sub-second
remainder `(other - Duration::seconds(d_sec)).num_nanoseconds()` is the
truncating remainder. -/
def timespec_add (t : Timespec) (other : Int) : Option Timespec :=
  let d_sec := other.tdiv NSEC_PER_SEC
  let d_nsec := other.tmod NSEC_PER_SEC
  let sec := t.sec + d_sec
  let nsec := t.nsec + d_nsec
  if NSEC_PER_SEC ≤ nsec then
    Timespec.new (sec + 1) (nsec - NSEC_PER_SEC)
  else if nsec < 0 then
    Timespec.new (sec - 1) (nsec + NSEC_PER_SEC)
  else
    Timespec.new sec nsec

/-- Function `impl Sub<Duration> for Timespec` (lib.rs lines 119-139). -/
def timespec_sub (t : Timespec) (other : Int) : Option Timespec :=
  let d_sec := other.tdiv NSEC_PER_SEC
  let d_nsec := other.tmod NSEC_PER_SEC
  let sec := t.sec - d_sec
  let nsec := t.nsec - d_nsec
  if NSEC_PER_SEC ≤ nsec then
    Timespec.new (sec + 1) (nsec - NSEC_PER_SEC)
  else if nsec < 0 then
    Timespec.new (sec - 1) (nsec + NSEC_PER_SEC)
  else
    Timespec.new sec nsec

/-- Total number of nanoseconds represented by a `Timespec`. -/
def Timespec.total (t : Timespec) : Int := t.sec * NSEC_PER_SEC + t.nsec

lemma neg_tmod_eq (a b : Int) : (-a).tmod b = -(a.tmod b) := by
  rw [Int.tmod_def, Int.tmod_def, Int.neg_tdiv]
  ring

lemma tmod_bounds (a : Int) :
    -NSEC_PER_SEC < a.tmod NSEC_PER_SEC ∧ a.tmod NSEC_PER_SEC < NSEC_PER_SEC := by
  have hpos : (0 : Int) < NSEC_PER_SEC := by norm_num [NSEC_PER_SEC]
  rcases le_or_lt 0 a with h | h
  · have h1 := Int.tmod_nonneg NSEC_PER_SEC h
    have h2 := Int.tmod_lt_of_pos a hpos
    exact ⟨by omega, h2⟩
  · have h1 : (0 : Int) ≤ -a := by omega
    have h2 := Int.tmod_nonneg NSEC_PER_SEC h1
    have h3 := Int.tmod_lt_of_pos (-a) hpos
    rw [neg_tmod_eq] at h2 h3
    exact ⟨by omega, by omega⟩

lemma tmod_tdiv_decompose (a : Int) :
    NSEC_PER_SEC * a.tdiv NSEC_PER_SEC + a.tmod NSEC_PER_SEC = a :=
  Int.tdiv_add_tmod a NSEC_PER_SEC

/-- Specification of the shared renormalization step of `add` / `sub`
(lib.rs lines 108-115 resp. 130-137 followed by `Timespec::new`): a
nanosecond value that is off by less than one second on either side is
brought back into range by the single conditional step. -/
lemma renorm_spec (sec nsec : Int) (hlo : -NSEC_PER_SEC < nsec) (hhi : nsec < 2 * NSEC_PER_SEC) :
    ∃ u : Timespec,
      (if NSEC_PER_SEC ≤ nsec then Timespec.new (sec + 1) (nsec - NSEC_PER_SEC)
       else if nsec < 0 then Timespec.new (sec - 1) (nsec + NSEC_PER_SEC)
       else Timespec.new sec nsec) = some u ∧
      0 ≤ u.nsec ∧ u.nsec < NSEC_PER_SEC ∧ u.total = sec * NSEC_PER_SEC + nsec := by
  simp only [Timespec.new, Timespec.total, NSEC_PER_SEC] at *
  by_cases hA : (1000000000 : Int) ≤ nsec
  · rw [if_pos hA, if_pos (by omega)]
    exact ⟨_, rfl, by dsimp only; omega, by dsimp only; omega, by dsimp only; ring_nf⟩
  · rw [if_neg hA]
    by_cases hB : nsec < 0
    · rw [if_pos hB, if_pos (by omega)]
      exact ⟨_, rfl, by dsimp only; omega, by dsimp only; omega, by dsimp only; ring_nf⟩
    · rw [if_neg hB, if_pos (by omega)]
      exact ⟨_, rfl, by dsimp only; omega, by dsimp only; omega, rfl⟩

/-- C8, step 1: adding a duration renormalizes the nanosecond field back
into range in the single conditional step, and the result's total
nanosecond count is the sum. -/
lemma timespec_add_spec (t : Timespec) (d : Int)
    (h0 : 0 ≤ t.nsec) (h1 : t.nsec < NSEC_PER_SEC) :
    ∃ u : Timespec, timespec_add t d = some u ∧ 0 ≤ u.nsec ∧ u.nsec < NSEC_PER_SEC ∧
      u.total = t.total + d := by
  have hb := tmod_bounds d
  have hd := tmod_tdiv_decompose d
  obtain ⟨u, hu, h2, h3, h4⟩ :=
    renorm_spec (t.sec + d.tdiv NSEC_PER_SEC) (t.nsec + d.tmod NSEC_PER_SEC)
      (by omega) (by omega)
  refine ⟨u, ?_, h2, h3, ?_⟩
  · simpa only [timespec_add] using hu
  · simp only [Timespec.total, NSEC_PER_SEC] at *
    omega

/-- C8, step 2: the same for subtraction. -/
lemma timespec_sub_spec (t : Timespec) (d : Int)
    (h0 : 0 ≤ t.nsec) (h1 : t.nsec < NSEC_PER_SEC) :
    ∃ u : Timespec, timespec_sub t d = some u ∧ 0 ≤ u.nsec ∧ u.nsec < NSEC_PER_SEC ∧
      u.total = t.total - d := by
  have hb := tmod_bounds d
  have hd := tmod_tdiv_decompose d
  obtain ⟨u, hu, h2, h3, h4⟩ :=
    renorm_spec (t.sec - d.tdiv NSEC_PER_SEC) (t.nsec - d.tmod NSEC_PER_SEC)
      (by omega) (by omega)
  refine ⟨u, ?_, h2, h3, ?_⟩
  · simpa only [timespec_sub] using hu
  · simp only [Timespec.total, NSEC_PER_SEC] at *
    omega

lemma timespec_total_inj (u t : Timespec)
    (hu0 : 0 ≤ u.nsec) (hu1 : u.nsec < NSEC_PER_SEC)
    (ht0 : 0 ≤ t.nsec) (ht1 : t.nsec < NSEC_PER_SEC)
    (h : u.total = t.total) : u = t := by
  rcases u with ⟨us, un⟩
  rcases t with ⟨ts, tn⟩
  simp only [Timespec.total, NSEC_PER_SEC] at *
  have hs : us = ts := by omega
  have hn : un = tn := by omega
  rw [hs, hn]

/-- C8: for every `Timespec` with a normalized nanosecond field and every
duration (given by its total nanosecond count, so its sub-second
remainder has magnitude below one second), `add` and `sub` both succeed
(the single renormalization step restores `0 ≤ nsec < 1e9`, so the
`assert!` in `Timespec::new` passes), and `add (sub t d) d = t`. -/
theorem c8_timespec_add_sub_roundtrip (t : Timespec) (d : Int)
    (h0 : 0 ≤ t.nsec) (h1 : t.nsec < NSEC_PER_SEC) :
    (∃ u : Timespec, timespec_add t d = some u ∧ 0 ≤ u.nsec ∧ u.nsec < NSEC_PER_SEC) ∧
    (∃ v : Timespec, timespec_sub t d = some v ∧ 0 ≤ v.nsec ∧ v.nsec < NSEC_PER_SEC ∧
      timespec_add v d = some t) := by
  obtain ⟨u, hu, hu0, hu1, _⟩ := timespec_add_spec t d h0 h1
  obtain ⟨v, hv, hv0, hv1, hvt⟩ := timespec_sub_spec t d h0 h1
  refine ⟨⟨u, hu, hu0, hu1⟩, ⟨v, hv, hv0, hv1, ?_⟩⟩
  obtain ⟨w, hw, hw0, hw1, hwt⟩ := timespec_add_spec v d hv0 hv1
  rw [hw]
  have : w = t := timespec_total_inj w t hw0 hw1 h0 h1 (by omega)
  rw [this]

/-- C8 witness: instantiation at `t = (1, 0)` and `d = -1` nanosecond
(the last test case of `test_timespec_add`). -/
theorem c8_witness :
    (0 : Int) ≤ (Timespec.mk 1 0).nsec ∧ (Timespec.mk 1 0).nsec < NSEC_PER_SEC ∧
    ((∃ u : Timespec, timespec_add ⟨1, 0⟩ (-1) = some u ∧
        0 ≤ u.nsec ∧ u.nsec < NSEC_PER_SEC) ∧
     (∃ v : Timespec, timespec_sub ⟨1, 0⟩ (-1) = some v ∧
        0 ≤ v.nsec ∧ v.nsec < NSEC_PER_SEC ∧ timespec_add v (-1) = some ⟨1, 0⟩)) :=
  ⟨by norm_num [NSEC_PER_SEC], by norm_num [NSEC_PER_SEC],
   c8_timespec_add_sub_roundtrip ⟨1, 0⟩ (-1) (by norm_num) (by norm_num [NSEC_PER_SEC])⟩

/-- Structure `Tm` (lib.rs lines 310-350): a broken-down time. -/
structure Tm where
  tm_sec : Int
  tm_min : Int
  tm_hour : Int
  tm_mday : Int
  tm_mon : Int
  tm_year : Int
  tm_wday : Int
  tm_yday : Int
  tm_isdst : Int
  tm_utcoff : Int
  tm_nsec : Int
deriving DecidableEq, Repr

/-- The all-zero broken-down time: `empty_tm` (lib.rs lines 386-400),
also the value `strptime` starts from (lib.rs lines 1321-1333). -/
def tm_zero : Tm := ⟨0, 0, 0, 0, 0, 0, 0, 0, 0, 0, 0⟩

/-- Rust's `{:02}` formatting of an integer: decimal, left-padded with a
zero to a minimum width of two. -/
def pad02 (n : Int) : String :=
  if 0 ≤ n ∧ n < 10 then "0" ++ toString n else toString n

/-- Render arm of `%z` inside `parse_type` (lib.rs lines 867-873): a
sign character followed by zero-padded hours and minutes.  All divisions
act on `tm_utcoff.abs()`, hence are done in `Nat`. -/
def fmt_z (utcoff : Int) : String :=
  let sign := if 0 < utcoff then "+" else "-"
  let m0 : Nat := utcoff.natAbs / 60
  let h : Nat := m0 / 60
  let m : Nat := m0 - h * 60
  sign ++ pad02 (h : Int) ++ pad02 (m : Int)

/-- Offset suffix of the `FmtRfc3339` render branch for a non-zero UTC
offset (lib.rs lines 905-915): the full preset output is the rendering
of `"%Y-%m-%dT%H:%M:%S"` followed by this suffix. -/
def rfc3339_offset (utcoff : Int) : String :=
  let sign := if 0 < utcoff then "+" else "-"
  let m0 : Nat := utcoff.natAbs / 60
  let h : Nat := m0 / 60
  let m : Nat := m0 - h * 60
  sign ++ pad02 (h : Int) ++ ":" ++ pad02 (m : Int)

/-- C1 counterexample: at UTC offset 0 the `%z` arm renders the sign
character `-`, not `+` — the source tests expect exactly this
(`test_strftime`: `utc.rfc822z()` ends in `-0000`). -/
theorem c1_fmt_z_zero_counterexample : fmt_z 0 = "-0000" ∧ fmt_z 0 ≠ "+0000" := by
  decide

/-- C1 amended: the `%z` arm emits `+` exactly when the UTC offset is
strictly positive (`-` for zero and negative offsets), and the non-UTC
RFC-3339 preset (whose offset is non-zero by the branch condition) emits
`+` exactly when the offset is non-negative; in both, magnitude splits
as hours = |offset|/3600 and minutes = (|offset|/60) mod 60, zero-padded
to two digits. -/
theorem c1_offset_rendering (utcoff : Int) :
    fmt_z utcoff =
      (if 0 < utcoff then "+" else "-") ++ pad02 ((utcoff.natAbs / 3600 : Nat) : Int)
        ++ pad02 ((utcoff.natAbs / 60 % 60 : Nat) : Int) ∧
    (utcoff ≠ 0 →
      rfc3339_offset utcoff =
        (if 0 ≤ utcoff then "+" else "-") ++ pad02 ((utcoff.natAbs / 3600 : Nat) : Int)
          ++ ":" ++ pad02 ((utcoff.natAbs / 60 % 60 : Nat) : Int)) := by
  have e1 : utcoff.natAbs / 60 / 60 = utcoff.natAbs / 3600 := by omega
  have e2 : utcoff.natAbs / 60 - utcoff.natAbs / 3600 * 60 = utcoff.natAbs / 60 % 60 := by
    omega
  constructor
  · simp only [fmt_z, e1, e2]
  · intro h
    by_cases hpos : 0 < utcoff
    · simp only [rfc3339_offset, e1, e2, if_pos hpos, if_pos (le_of_lt hpos)]
    · have hneg : ¬(0 ≤ utcoff) := by omega
      simp only [rfc3339_offset, e1, e2, if_neg hpos, if_neg hneg]

/-- C1 witness: the amended statement evaluated at offset −28800
(US Pacific, the offset used throughout the source's tests). -/
theorem c1_offset_rendering_witness :
    fmt_z (-28800) = "-0800" ∧ rfc3339_offset (-28800) = "-08:00" := by
  have h := c1_offset_rendering (-28800)
  refine ⟨?_, ?_⟩
  · rw [h.1]; decide
  · rw [h.2 (by decide)]; decide

/-- Function `is_leap_year` (lib.rs lines 662-664). -/
def is_leap_year (year : Int) : Bool :=
  year.tmod 4 == 0 && (year.tmod 100 != 0 || year.tmod 400 == 0)

/-- Function `days_in_year` (lib.rs lines 666-669). -/
def days_in_year (year : Int) : Int :=
  if is_leap_year year then 366 else 365

/-- Function `iso_week_days` (lib.rs lines 671-688): number of days from
the first day of the first ISO week of this year to year-day `yday`
falling on week-day `wday`. -/
def iso_week_days (yday wday : Int) : Int :=
  let iso_week_start_wday : Int := 1
  let iso_week1_wday : Int := 4
  let yday_minimum : Int := 366
  let big_enough_multiple_of_7 : Int := (yday_minimum.tdiv 7 + 2) * 7
  yday - (yday - wday + iso_week1_wday + big_enough_multiple_of_7).tmod 7 +
    iso_week1_wday - iso_week_start_wday

/-- Mutation core of function `iso_week` (lib.rs lines 690-707): the ISO
week-numbering year and the day offset within it, after the three-way
previous/current/next-year disambiguation. -/
def iso_week_year_days (tm : Tm) : Int × Int :=
  let year := tm.tm_year + 1900
  let days := iso_week_days tm.tm_yday tm.tm_wday
  if days < 0 then
    (year - 1, iso_week_days (tm.tm_yday + days_in_year (year - 1)) tm.tm_wday)
  else
    let d := iso_week_days (tm.tm_yday - days_in_year year) tm.tm_wday
    if 0 ≤ d then (year + 1, d) else (year, days)

/-- Output arm of function `iso_week` (lib.rs lines 708-713): rendering
of `%G` (full week-numbering year), `%g` (its last two digits) and `%V`
(the 1-based week number `days / 7 + 1`). -/
def fmt_iso_week (ch : Char) (tm : Tm) : String :=
  let p := iso_week_year_days tm
  if ch = 'G' then toString p.1
  else if ch = 'g' then pad02 ((p.1.tmod 100 + 100).tmod 100)
  else if ch = 'V' then pad02 (p.2.tdiv 7 + 1)
  else ""

/-- Broken-down time of 2018-12-31 (a Monday, year-day 364). -/
def tm_2018_12_31 : Tm :=
  { tm_zero with tm_year := 118, tm_mon := 11, tm_mday := 31, tm_wday := 1, tm_yday := 364 }

/-- C4: the ISO week computation resolves the week-numbering year by
three-way disambiguation (negative offset → previous year, recomputed
with the previous year's day count; non-negative offset against the next
year's baseline → next year; otherwise the current year), the `%V` week
number is `days / 7 + 1`, and for 2018-12-31 the `%G` rendering is
`2019` and the `%V` rendering is `01`. -/
theorem c4_iso_week_disambiguation (tm : Tm)
    (_hw : 0 ≤ tm.tm_wday ∧ tm.tm_wday ≤ 6)
    (_hy : 0 ≤ tm.tm_yday ∧ tm.tm_yday ≤ 365) :
    (iso_week_days tm.tm_yday tm.tm_wday < 0 →
      iso_week_year_days tm = (tm.tm_year + 1900 - 1,
        iso_week_days (tm.tm_yday + days_in_year (tm.tm_year + 1900 - 1)) tm.tm_wday)) ∧
    (0 ≤ iso_week_days tm.tm_yday tm.tm_wday →
      0 ≤ iso_week_days (tm.tm_yday - days_in_year (tm.tm_year + 1900)) tm.tm_wday →
      iso_week_year_days tm = (tm.tm_year + 1900 + 1,
        iso_week_days (tm.tm_yday - days_in_year (tm.tm_year + 1900)) tm.tm_wday)) ∧
    (0 ≤ iso_week_days tm.tm_yday tm.tm_wday →
      iso_week_days (tm.tm_yday - days_in_year (tm.tm_year + 1900)) tm.tm_wday < 0 →
      iso_week_year_days tm = (tm.tm_year + 1900, iso_week_days tm.tm_yday tm.tm_wday)) ∧
    fmt_iso_week 'V' tm = pad02 ((iso_week_year_days tm).2.tdiv 7 + 1) ∧
    (fmt_iso_week 'G' tm_2018_12_31 = "2019" ∧ fmt_iso_week 'V' tm_2018_12_31 = "01") := by
  refine ⟨?_, ?_, ?_, ?_, by decide, by decide⟩
  · intro h
    simp only [iso_week_year_days]
    rw [if_pos h]
  · intro h1 h2
    simp only [iso_week_year_days]
    rw [if_neg (by omega), if_pos h2]
  · intro h1 h2
    simp only [iso_week_year_days]
    rw [if_neg (by omega), if_neg (by omega)]
  · simp [fmt_iso_week]

/-- C4 witness: the theorem applied at the broken-down time of
2018-12-31. -/
theorem c4_iso_week_witness :
    fmt_iso_week 'V' tm_2018_12_31 =
      pad02 ((iso_week_year_days tm_2018_12_31).2.tdiv 7 + 1) ∧
    fmt_iso_week 'G' tm_2018_12_31 = "2019" :=
  ⟨(c4_iso_week_disambiguation tm_2018_12_31 (by decide) (by decide)).2.2.2.1,
   (c4_iso_week_disambiguation tm_2018_12_31 (by decide) (by decide)).2.2.2.2.1⟩

/-- Enumeration `ParseError` (lib.rs lines 535-551). -/
inductive ParseError
  | InvalidSecond
  | InvalidMinute
  | InvalidHour
  | InvalidDay
  | InvalidMonth
  | InvalidYear
  | InvalidDayOfWeek
  | InvalidDayOfMonth
  | InvalidDayOfYear
  | InvalidZoneOffset
  | InvalidTime
  | MissingFormatConverter
  | InvalidFormatSpecifier (c : Char)
  | UnexpectedCharacter (expected found : Char)
deriving DecidableEq, Repr

/-- Enumeration `Fmt` (lib.rs lines 580-584). -/
inductive Fmt
  | FmtStr (s : List Char)
  | FmtRfc3339
  | FmtCtime
deriving DecidableEq, Repr

/-- The characters accepted after `%` by `validate_format`
(lib.rs lines 601-644). -/
def specifier_chars : List Char :=
  ['A', 'a', 'B', 'b', 'C', 'c', 'D', 'd', 'e', 'F', 'f', 'G', 'g', 'H', 'h',
   'I', 'j', 'k', 'l', 'M', 'm', 'n', 'P', 'p', 'R', 'r', 'S', 's', 'T', 't',
   'U', 'u', 'V', 'v', 'W', 'w', 'X', 'x', 'Y', 'y', 'Z', 'z', '+', '%']

/-- Membership in the recognized specifier set. -/
def is_specifier (c : Char) : Bool := specifier_chars.contains c

/-- Character-scan loop of `validate_format` (lib.rs lines 595-654): on
each `%` read one more character, which must belong to the recognized
specifier set; a missing character is `MissingFormatConverter`, an
unrecognized one `InvalidFormatSpecifier`. -/
def validate_scan : List Char → Except ParseError Unit
  | [] => .ok ()
  | ch :: rest =>
    if ch = '%' then
      match rest with
      | [] => .error .MissingFormatConverter
      | c :: rest' =>
        if is_specifier c then validate_scan rest'
        else .error (.InvalidFormatSpecifier c)
    else validate_scan rest

/-- Function `validate_format` (lib.rs lines 586-658): the weekday/month
field check, then the character scan for `FmtStr` formats (presets skip
the scan). -/
def validate_format (tm : Tm) (format : Fmt) : Except ParseError Fmt :=
  if 0 ≤ tm.tm_wday ∧ tm.tm_wday ≤ 6 then
    if 0 ≤ tm.tm_mon ∧ tm.tm_mon ≤ 11 then
      match format with
      | .FmtStr s =>
        match validate_scan s with
        | .ok _ => .ok format
        | .error e => .error e
      | _ => .ok format
    else .error .InvalidMonth
  else if 0 ≤ tm.tm_mon ∧ tm.tm_mon ≤ 11 then .error .InvalidDayOfWeek
  else .error .InvalidDay

/-- Broken-down time whose weekday and month are both out of range. -/
def tm_bad_wday_mon : Tm := { tm_zero with tm_wday := 7, tm_mon := 12 }

/-- C6 counterexample: with weekday 7 (out of range) and month 12 (also
out of range), `validate_format` returns `InvalidDay`, not the
`InvalidDayOfWeek` the claim requires for every out-of-range weekday;
this also refutes the claim that `InvalidDay` is only returned when both
fields are in range. -/
theorem c6_counterexample :
    validate_format tm_bad_wday_mon (.FmtStr []) = .error .InvalidDay ∧
    ParseError.InvalidDay ≠ ParseError.InvalidDayOfWeek := by
  constructor
  · rfl
  · decide

/-- Every outcome of the scan is `ok`, `MissingFormatConverter`, or
`InvalidFormatSpecifier`; it never produces the field-check errors. -/
lemma validate_scan_nil : validate_scan [] = .ok () := rfl

lemma validate_scan_pct_nil : validate_scan ['%'] = .error .MissingFormatConverter := rfl

lemma validate_scan_pct_cons (c : Char) (rest' : List Char) :
    validate_scan ('%' :: c :: rest') =
      if is_specifier c then validate_scan rest'
      else .error (.InvalidFormatSpecifier c) := rfl

lemma validate_scan_lit (ch : Char) (rest : List Char) (hch : ch ≠ '%') :
    validate_scan (ch :: rest) = validate_scan rest := by
  rw [validate_scan.eq_def]
  simp [hch]

lemma validate_scan_cases_aux (n : Nat) : ∀ s : List Char, s.length ≤ n →
    validate_scan s = .ok () ∨ validate_scan s = .error .MissingFormatConverter ∨
    ∃ c, validate_scan s = .error (.InvalidFormatSpecifier c) := by
  induction n with
  | zero =>
    intro s hs
    have h0 : s = [] := List.length_eq_zero.mp (Nat.le_zero.mp hs)
    subst h0
    left
    rfl
  | succ n ih =>
    intro s hs
    rcases s with _ | ⟨ch, rest⟩
    · left
      rfl
    · by_cases hch : ch = '%'
      · subst hch
        rcases rest with _ | ⟨c, rest'⟩
        · right
          left
          rfl
        · rw [validate_scan_pct_cons]
          by_cases hc : is_specifier c
          · rw [if_pos hc]
            exact ih rest' (by simp at hs; omega)
          · rw [if_neg hc]
            exact Or.inr (Or.inr ⟨c, rfl⟩)
      · rw [validate_scan_lit ch rest hch]
        exact ih rest (by simp at hs; omega)

lemma validate_scan_cases (s : List Char) :
    validate_scan s = .ok () ∨ validate_scan s = .error .MissingFormatConverter ∨
    ∃ c, validate_scan s = .error (.InvalidFormatSpecifier c) :=
  validate_scan_cases_aux s.length s le_rfl

/-- C6 amended: the field check of `validate_format` returns
`InvalidDayOfWeek` when only the weekday is out of range,
`InvalidMonth` when only the month is out of range, `InvalidDay` when
both are out of range, and when both are in range the result is never
one of those three errors (only scan errors can occur). -/
theorem c6_field_validation (tm : Tm) (format : Fmt) :
    (¬(0 ≤ tm.tm_wday ∧ tm.tm_wday ≤ 6) → (0 ≤ tm.tm_mon ∧ tm.tm_mon ≤ 11) →
      validate_format tm format = .error .InvalidDayOfWeek) ∧
    ((0 ≤ tm.tm_wday ∧ tm.tm_wday ≤ 6) → ¬(0 ≤ tm.tm_mon ∧ tm.tm_mon ≤ 11) →
      validate_format tm format = .error .InvalidMonth) ∧
    (¬(0 ≤ tm.tm_wday ∧ tm.tm_wday ≤ 6) → ¬(0 ≤ tm.tm_mon ∧ tm.tm_mon ≤ 11) →
      validate_format tm format = .error .InvalidDay) ∧
    ((0 ≤ tm.tm_wday ∧ tm.tm_wday ≤ 6) → (0 ≤ tm.tm_mon ∧ tm.tm_mon ≤ 11) →
      validate_format tm format ≠ .error .InvalidDay ∧
      validate_format tm format ≠ .error .InvalidDayOfWeek ∧
      validate_format tm format ≠ .error .InvalidMonth) := by
  refine ⟨?_, ?_, ?_, ?_⟩
  · intro h1 h2
    simp only [validate_format, if_neg h1, if_pos h2]
  · intro h1 h2
    simp only [validate_format, if_pos h1, if_neg h2]
  · intro h1 h2
    simp only [validate_format, if_neg h1, if_neg h2]
  · intro h1 h2
    simp only [validate_format, if_pos h1, if_pos h2]
    rcases format with s | _ | _
    · dsimp only
      rcases validate_scan_cases s with h | h | ⟨c, h⟩ <;> rw [h] <;>
        exact ⟨by simp, by simp, by simp⟩
    · exact ⟨by simp, by simp, by simp⟩
    · exact ⟨by simp, by simp, by simp⟩

/-- C6 witness: the amended statement evaluated on the three
out-of-range combinations. -/
theorem c6_field_validation_witness :
    validate_format { tm_zero with tm_wday := 7 } (.FmtStr []) = .error .InvalidDayOfWeek ∧
    validate_format { tm_zero with tm_mon := 12 } (.FmtStr []) = .error .InvalidMonth ∧
    validate_format tm_bad_wday_mon (.FmtStr []) = .error .InvalidDay :=
  ⟨(c6_field_validation { tm_zero with tm_wday := 7 } (.FmtStr [])).1 (by decide) (by decide),
   (c6_field_validation { tm_zero with tm_mon := 12 } (.FmtStr [])).2.1 (by decide) (by decide),
   (c6_field_validation tm_bad_wday_mon (.FmtStr [])).2.2.1 (by decide) (by decide)⟩

/-- Acceptance predicate written from the words of C7: walking the
format, every `%` that starts an escape must be followed by a character
of the recognized specifier set (the character consumed by a `%%`
escape is not itself the start of an escape). -/
def format_accepted : List Char → Bool
  | [] => true
  | ch :: rest =>
    if ch = '%' then
      match rest with
      | [] => false
      | c :: rest' => is_specifier c && format_accepted rest'
    else format_accepted rest

lemma format_accepted_nil : format_accepted [] = true := rfl

lemma format_accepted_pct_nil : format_accepted ['%'] = false := rfl

lemma format_accepted_pct_cons (c : Char) (rest' : List Char) :
    format_accepted ('%' :: c :: rest') = (is_specifier c && format_accepted rest') := rfl

lemma format_accepted_lit (ch : Char) (rest : List Char) (hch : ch ≠ '%') :
    format_accepted (ch :: rest) = format_accepted rest := by
  rw [format_accepted.eq_def]
  simp [hch]

lemma c7_scan_aux (n : Nat) : ∀ s : List Char, s.length ≤ n →
    ((validate_scan s = .ok () ↔ format_accepted s = true) ∧
     (format_accepted s = true →
       validate_scan (s ++ ['%']) = .error .MissingFormatConverter) ∧
     (∀ c, format_accepted s = true → is_specifier c = false →
       validate_scan (s ++ ['%', c]) = .error (.InvalidFormatSpecifier c))) := by
  induction n with
  | zero =>
    intro s hs
    have h0 : s = [] := List.length_eq_zero.mp (Nat.le_zero.mp hs)
    subst h0
    refine ⟨by simp [validate_scan_nil, format_accepted_nil], ?_, ?_⟩
    · intro _
      rfl
    · intro c _ hc
      simp only [List.nil_append, validate_scan_pct_cons, hc, validate_scan_nil]
      rw [if_neg (by simp [hc])]
  | succ n ih =>
    intro s hs
    rcases s with _ | ⟨ch, rest⟩
    · exact ih [] (by simp)
    · by_cases hch : ch = '%'
      · subst hch
        rcases rest with _ | ⟨c, rest'⟩
        · refine ⟨by simp [validate_scan_pct_nil, format_accepted_pct_nil], ?_, ?_⟩
          · intro h
            rw [format_accepted_pct_nil] at h
            cases h
          · intro c h
            rw [format_accepted_pct_nil] at h
            cases h
        · have ihr := ih rest' (by simp at hs; omega)
          by_cases hc : is_specifier c = true
          · refine ⟨?_, ?_, ?_⟩
            · rw [validate_scan_pct_cons, if_pos hc, format_accepted_pct_cons, hc,
                Bool.true_and]
              exact ihr.1
            · intro h
              rw [format_accepted_pct_cons, hc, Bool.true_and] at h
              rw [List.cons_append, List.cons_append, validate_scan_pct_cons, if_pos hc]
              exact ihr.2.1 h
            · intro c' h hc'
              rw [format_accepted_pct_cons, hc, Bool.true_and] at h
              rw [List.cons_append, List.cons_append, validate_scan_pct_cons, if_pos hc]
              exact ihr.2.2 c' h hc'
          · refine ⟨?_, ?_, ?_⟩
            · rw [validate_scan_pct_cons, if_neg hc, format_accepted_pct_cons,
                Bool.eq_false_iff.mpr hc, Bool.false_and]
              simp
            · intro h
              rw [format_accepted_pct_cons, Bool.eq_false_iff.mpr hc, Bool.false_and] at h
              cases h
            · intro c' h
              rw [format_accepted_pct_cons, Bool.eq_false_iff.mpr hc, Bool.false_and] at h
              cases h
      · have ihr := ih rest (by simp at hs; omega)
        refine ⟨?_, ?_, ?_⟩
        · rw [validate_scan_lit ch rest hch, format_accepted_lit ch rest hch]
          exact ihr.1
        · intro h
          rw [format_accepted_lit ch rest hch] at h
          rw [List.cons_append, validate_scan_lit ch _ hch]
          exact ihr.2.1 h
        · intro c' h hc'
          rw [format_accepted_lit ch rest hch] at h
          rw [List.cons_append, validate_scan_lit ch _ hch]
          exact ihr.2.2 c' h hc'

/-- C7: the `validate_format` scan accepts a format string exactly when
every `%`-escape resolves to a character of the recognized specifier
set; a trailing bare `%` (after an accepted prefix) fails with
`MissingFormatConverter`, and a `%` followed by a character outside the
set fails with `InvalidFormatSpecifier` carrying that character.  For a
broken-down time passing the field check, the same characterizes
`validate_format` on literal format strings. -/
theorem c7_format_validation (s : List Char) :
    (validate_scan s = .ok () ↔ format_accepted s = true) ∧
    (format_accepted s = true →
      validate_scan (s ++ ['%']) = .error .MissingFormatConverter) ∧
    (∀ c, format_accepted s = true → is_specifier c = false →
      validate_scan (s ++ ['%', c]) = .error (.InvalidFormatSpecifier c)) ∧
    (∀ tm : Tm, 0 ≤ tm.tm_wday ∧ tm.tm_wday ≤ 6 → 0 ≤ tm.tm_mon ∧ tm.tm_mon ≤ 11 →
      (validate_format tm (.FmtStr s) = .ok (.FmtStr s) ↔ format_accepted s = true)) := by
  obtain ⟨h1, h2, h3⟩ := c7_scan_aux s.length s le_rfl
  refine ⟨h1, h2, h3, ?_⟩
  intro tm hw hm
  simp only [validate_format, if_pos hw, if_pos hm]
  constructor
  · intro h
    rcases validate_scan_cases s with hc | hc | ⟨c, hc⟩
    · exact h1.mp hc
    · rw [hc] at h
      cases h
    · rw [hc] at h
      cases h
  · intro h
    rw [h1.mpr h]

/-- C7 witness: the characterization applied to concrete format strings,
including the specifier set member check for a valid format, a trailing
`%`, and the invalid specifier `%E` from the source's tests. -/
theorem c7_format_validation_witness :
    validate_scan "%Y-%m-%d".toList = .ok () ∧
    validate_scan ("%A ".toList ++ ['%']) = .error .MissingFormatConverter ∧
    validate_scan ("".toList ++ ['%', 'E']) = .error (.InvalidFormatSpecifier 'E') :=
  ⟨(c7_format_validation "%Y-%m-%d".toList).1.mpr (by decide),
   (c7_format_validation "%A ".toList).2.1 (by decide),
   (c7_format_validation "".toList).2.2.1 'E' (by decide) (by decide)⟩


/-- Result of one parsing step of `strptime`: success, a `ParseError`,
or a Rust panic (out-of-bounds `char_range_at`). -/
inductive PR (α : Type)
  | ok (a : α)
  | err (e : ParseError)
  | crash
deriving DecidableEq, Repr

/-- Sequencing of parsing steps (Rust's `and_then` chains). -/
def PR.bind {α β : Type} : PR α → (α → PR β) → PR β
  | .ok a, f => f a
  | .err e, _ => .err e
  | .crash, _ => .crash

/-- Function `match_str` (lib.rs lines 929-931), on the remaining
input. -/
def match_str (rem : List Char) (needle : String) : Bool :=
  needle.toList.isPrefixOf rem

/-- Function `match_strs` (lib.rs lines 933-942): the first prefix match
in an ordered table wins. -/
def match_strs (rem : List Char) (strs : List (String × Int)) : Option (Int × List Char) :=
  match strs with
  | [] => none
  | (needle, value) :: rest =>
    if match_str rem needle then some (value, rem.drop needle.toList.length)
    else match_strs rem rest

/-- Loop of function `match_digits` (lib.rs lines 944-969): consume
exactly `digits` characters, each a decimal digit accumulated in base
10 (or, when `ws` is set, a space leaving the accumulator unchanged). -/
def match_digits_loop : List Char → Nat → Bool → Int → Option (Int × List Char)
  | rem, 0, _, value => some (value, rem)
  | [], _ + 1, _, _ => none
  | c :: rest, n + 1, ws, value =>
    if '0' ≤ c ∧ c ≤ '9' then
      match_digits_loop rest n ws (value * 10 + ((c.toNat : Int) - ('0'.toNat : Int)))
    else if c = ' ' ∧ ws then match_digits_loop rest n ws value
    else none

/-- Function `match_digits` (lib.rs lines 944-969). -/
def match_digits (rem : List Char) (digits : Nat) (ws : Bool) : Option (Int × List Char) :=
  match_digits_loop rem digits ws 0

/-- Loop of function `match_fractional_seconds` (lib.rs lines 971-993):
greedily consume digits weighted by a descending power-of-ten
multiplier; digits beyond the ninth are dropped (multiplier 0). -/
def match_fractional_loop : List Char → Int → Int → Int × List Char
  | [], value, _ => (value, [])
  | c :: rest, value, multiplier =>
    if '0' ≤ c ∧ c ≤ '9' then
      match_fractional_loop rest (value + ((c.toNat : Int) - ('0'.toNat : Int)) * multiplier)
        (multiplier.tdiv 10)
    else (value, c :: rest)

/-- Function `match_fractional_seconds` (lib.rs lines 971-993). -/
def match_fractional_seconds (rem : List Char) : Int × List Char :=
  match_fractional_loop rem 0 (NSEC_PER_SEC.tdiv 10)

/-- Function `match_digits_in_range` (lib.rs lines 995-1003); the bounds
`min` / `max` of the source are named `lo` / `hi`. -/
def match_digits_in_range (rem : List Char) (digits : Nat) (ws : Bool)
    (lo hi : Int) : Option (Int × List Char) :=
  match match_digits rem digits ws with
  | some (val, rem') => if lo ≤ val ∧ val ≤ hi then some (val, rem') else none
  | none => none

/-- Function `parse_char` (lib.rs lines 1005-1013); `char_range_at` at
the end of the input panics (`crash`). -/
def parse_char (rem : List Char) (c : Char) : PR (List Char) :=
  match rem with
  | [] => .crash
  | ch :: rest => if c = ch then .ok rest else .err (.UnexpectedCharacter c ch)

/-- Skip-up-to-space loop of the lenient arm of `%Z`
(lib.rs lines 1280-1288). -/
def skip_to_space : List Char → List Char
  | [] => []
  | c :: rest => if c = ' ' then rest else skip_to_space rest

/-- Arm `'Z'` of the strptime `parse_type` (lib.rs lines 1273-1290). -/
def parse_Z (rem : List Char) (tm : Tm) : PR (Tm × List Char) :=
  if match_str rem "UTC" || match_str rem "GMT" then
    .ok ({ tm with tm_utcoff := 0 }, rem.drop 3)
  else
    .ok (tm, skip_to_space rem)

/-- Arm `'z'` of the strptime `parse_type` (lib.rs lines 1291-1314): a
leading sign, then exactly four digits `HHMM`; the value zero is
normalized to offset 0 regardless of sign. -/
def parse_z (rem : List Char) (tm : Tm) : PR (Tm × List Char) :=
  match rem with
  | [] => .crash
  | c :: rest =>
    if c = '+' ∨ c = '-' then
      let sign : Int := if c = '+' then 1 else -1
      match match_digits rest 4 false with
      | some (v, rem') =>
        if v = 0 then .ok ({ tm with tm_utcoff := 0 }, rem')
        else
          let hours := v.tdiv 100
          let minutes := v - hours * 100
          .ok ({ tm with tm_utcoff := sign * (hours * 60 * 60 + minutes * 60) }, rem')
      | none => .err .InvalidZoneOffset
    else .err .InvalidZoneOffset

/-- Depth of composite delegation, used as the termination measure of
`parse_type`: `%c` expands to `%T`, which expands to primitives. -/
def spec_rank (ch : Char) : Nat :=
  if ch = 'c' then 2
  else if ch = 'D' ∨ ch = 'x' ∨ ch = 'F' ∨ ch = 'R' ∨ ch = 'r' ∨ ch = 'T' ∨
      ch = 'X' ∨ ch = 'v' then 1
  else 0

/-- Function `parse_type` of `strptime` (lib.rs lines 1015-1317):
dispatch on the specifier character; composites delegate to the
primitive arms; unhandled characters (among them `G g s U V W +`) fall
to the default arm `InvalidFormatSpecifier`. -/
def parse_type (rem : List Char) (ch : Char) (tm : Tm) : PR (Tm × List Char) :=
  match ch with
  | 'A' =>
    match match_strs rem [("Sunday", 0), ("Monday", 1), ("Tuesday", 2), ("Wednesday", 3),
        ("Thursday", 4), ("Friday", 5), ("Saturday", 6)] with
    | some (v, rem') => .ok ({ tm with tm_wday := v }, rem')
    | none => .err .InvalidDay
  | 'a' =>
    match match_strs rem [("Sun", 0), ("Mon", 1), ("Tue", 2), ("Wed", 3), ("Thu", 4),
        ("Fri", 5), ("Sat", 6)] with
    | some (v, rem') => .ok ({ tm with tm_wday := v }, rem')
    | none => .err .InvalidDay
  | 'B' =>
    match match_strs rem [("January", 0), ("February", 1), ("March", 2), ("April", 3),
        ("May", 4), ("June", 5), ("July", 6), ("August", 7), ("September", 8),
        ("October", 9), ("November", 10), ("December", 11)] with
    | some (v, rem') => .ok ({ tm with tm_mon := v }, rem')
    | none => .err .InvalidMonth
  | 'b' | 'h' =>
    match match_strs rem [("Jan", 0), ("Feb", 1), ("Mar", 2), ("Apr", 3), ("May", 4),
        ("Jun", 5), ("Jul", 6), ("Aug", 7), ("Sep", 8), ("Oct", 9), ("Nov", 10),
        ("Dec", 11)] with
    | some (v, rem') => .ok ({ tm with tm_mon := v }, rem')
    | none => .err .InvalidMonth
  | 'C' =>
    match match_digits_in_range rem 2 false 0 99 with
    | some (v, rem') => .ok ({ tm with tm_year := tm.tm_year + (v * 100) - 1900 }, rem')
    | none => .err .InvalidYear
  | 'c' =>
    PR.bind (parse_type rem 'a' tm) (fun p1 =>
      PR.bind (parse_char p1.2 ' ') (fun r1 =>
        PR.bind (parse_type r1 'b' p1.1) (fun p2 =>
          PR.bind (parse_char p2.2 ' ') (fun r2 =>
            PR.bind (parse_type r2 'e' p2.1) (fun p3 =>
              PR.bind (parse_char p3.2 ' ') (fun r3 =>
                PR.bind (parse_type r3 'T' p3.1) (fun p4 =>
                  PR.bind (parse_char p4.2 ' ') (fun r4 =>
                    parse_type r4 'Y' p4.1))))))))
  | 'D' | 'x' =>
    PR.bind (parse_type rem 'm' tm) (fun p1 =>
      PR.bind (parse_char p1.2 '/') (fun r1 =>
        PR.bind (parse_type r1 'd' p1.1) (fun p2 =>
          PR.bind (parse_char p2.2 '/') (fun r2 =>
            parse_type r2 'y' p2.1))))
  | 'd' =>
    match match_digits_in_range rem 2 false 1 31 with
    | some (v, rem') => .ok ({ tm with tm_mday := v }, rem')
    | none => .err .InvalidDayOfMonth
  | 'e' =>
    match match_digits_in_range rem 2 true 1 31 with
    | some (v, rem') => .ok ({ tm with tm_mday := v }, rem')
    | none => .err .InvalidDayOfMonth
  | 'f' =>
    let p := match_fractional_seconds rem
    .ok ({ tm with tm_nsec := p.1 }, p.2)
  | 'F' =>
    PR.bind (parse_type rem 'Y' tm) (fun p1 =>
      PR.bind (parse_char p1.2 '-') (fun r1 =>
        PR.bind (parse_type r1 'm' p1.1) (fun p2 =>
          PR.bind (parse_char p2.2 '-') (fun r2 =>
            parse_type r2 'd' p2.1))))
  | 'H' =>
    match match_digits_in_range rem 2 false 0 23 with
    | some (v, rem') => .ok ({ tm with tm_hour := v }, rem')
    | none => .err .InvalidHour
  | 'I' =>
    match match_digits_in_range rem 2 false 1 12 with
    | some (v, rem') => .ok ({ tm with tm_hour := if v = 12 then 0 else v }, rem')
    | none => .err .InvalidHour
  | 'j' =>
    match match_digits_in_range rem 3 false 1 366 with
    | some (v, rem') => .ok ({ tm with tm_yday := v - 1 }, rem')
    | none => .err .InvalidDayOfYear
  | 'k' =>
    match match_digits_in_range rem 2 true 0 23 with
    | some (v, rem') => .ok ({ tm with tm_hour := v }, rem')
    | none => .err .InvalidHour
  | 'l' =>
    match match_digits_in_range rem 2 true 1 12 with
    | some (v, rem') => .ok ({ tm with tm_hour := if v = 12 then 0 else v }, rem')
    | none => .err .InvalidHour
  | 'M' =>
    match match_digits_in_range rem 2 false 0 59 with
    | some (v, rem') => .ok ({ tm with tm_min := v }, rem')
    | none => .err .InvalidMinute
  | 'm' =>
    match match_digits_in_range rem 2 false 1 12 with
    | some (v, rem') => .ok ({ tm with tm_mon := v - 1 }, rem')
    | none => .err .InvalidMonth
  | 'n' => PR.bind (parse_char rem '\n') (fun r => .ok (tm, r))
  | 'P' =>
    match match_strs rem [("am", 0), ("pm", 12)] with
    | some (v, rem') => .ok ({ tm with tm_hour := tm.tm_hour + v }, rem')
    | none => .err .InvalidHour
  | 'p' =>
    match match_strs rem [("AM", 0), ("PM", 12)] with
    | some (v, rem') => .ok ({ tm with tm_hour := tm.tm_hour + v }, rem')
    | none => .err .InvalidHour
  | 'R' =>
    PR.bind (parse_type rem 'H' tm) (fun p1 =>
      PR.bind (parse_char p1.2 ':') (fun r1 =>
        parse_type r1 'M' p1.1))
  | 'r' =>
    PR.bind (parse_type rem 'I' tm) (fun p1 =>
      PR.bind (parse_char p1.2 ':') (fun r1 =>
        PR.bind (parse_type r1 'M' p1.1) (fun p2 =>
          PR.bind (parse_char p2.2 ':') (fun r2 =>
            PR.bind (parse_type r2 'S' p2.1) (fun p3 =>
              PR.bind (parse_char p3.2 ' ') (fun r3 =>
                parse_type r3 'p' p3.1))))))
  | 'S' =>
    match match_digits_in_range rem 2 false 0 60 with
    | some (v, rem') => .ok ({ tm with tm_sec := v }, rem')
    | none => .err .InvalidSecond
  | 'T' | 'X' =>
    PR.bind (parse_type rem 'H' tm) (fun p1 =>
      PR.bind (parse_char p1.2 ':') (fun r1 =>
        PR.bind (parse_type r1 'M' p1.1) (fun p2 =>
          PR.bind (parse_char p2.2 ':') (fun r2 =>
            parse_type r2 'S' p2.1))))
  | 't' => PR.bind (parse_char rem '\t') (fun r => .ok (tm, r))
  | 'u' =>
    match match_digits_in_range rem 1 false 1 7 with
    | some (v, rem') => .ok ({ tm with tm_wday := if v = 7 then 0 else v }, rem')
    | none => .err .InvalidDayOfWeek
  | 'v' =>
    PR.bind (parse_type rem 'e' tm) (fun p1 =>
      PR.bind (parse_char p1.2 '-') (fun r1 =>
        PR.bind (parse_type r1 'b' p1.1) (fun p2 =>
          PR.bind (parse_char p2.2 '-') (fun r2 =>
            parse_type r2 'Y' p2.1))))
  | 'w' =>
    match match_digits_in_range rem 1 false 0 6 with
    | some (v, rem') => .ok ({ tm with tm_wday := v }, rem')
    | none => .err .InvalidDayOfWeek
  | 'Y' =>
    match match_digits rem 4 false with
    | some (v, rem') => .ok ({ tm with tm_year := v - 1900 }, rem')
    | none => .err .InvalidYear
  | 'y' =>
    match match_digits_in_range rem 2 false 0 99 with
    | some (v, rem') => .ok ({ tm with tm_year := v }, rem')
    | none => .err .InvalidYear
  | 'Z' => parse_Z rem tm
  | 'z' => parse_z rem tm
  | '%' => PR.bind (parse_char rem '%') (fun r => .ok (tm, r))
  | ch => .err (.InvalidFormatSpecifier ch)
termination_by spec_rank ch
decreasing_by all_goals decide

/-- Outcome of the main `strptime` loop (lib.rs lines 1338-1364): the
remaining input, the remaining format, the accumulated `Tm`, and the
`result` variable (initially `InvalidTime`, overwritten by the error of
a failed specifier) — or a panic. -/
inductive LoopOut
  | done (sRem fRem : List Char) (tm : Tm) (e : ParseError)
  | crash
deriving DecidableEq, Repr

/-- Main loop of `strptime` (lib.rs lines 1338-1364): while input
remains, read a format character; `%` reads a specifier and runs
`parse_type`; a literal must equal the next input character or the loop
breaks with the `result` still `InvalidTime`. -/
def strptime_loop : List Char → List Char → Tm → LoopOut
  | [], f, tm => .done [] f tm .InvalidTime
  | ch :: srest, f, tm =>
    match f with
    | [] => .done (ch :: srest) [] tm .InvalidTime
    | c :: frest =>
      if c = '%' then
        match frest with
        | [] => .done (ch :: srest) [] tm .InvalidTime
        | sc :: frest2 =>
          match parse_type (ch :: srest) sc tm with
          | .ok p => strptime_loop p.2 frest2 p.1
          | .err e => .done (ch :: srest) frest2 tm e
          | .crash => .crash
      else if c = ch then strptime_loop srest frest tm
      else .done (ch :: srest) frest tm .InvalidTime

/-- Function `strptime` (lib.rs lines 928 and 1320-1381): run the loop
from the all-zero `Tm`; parsing succeeds exactly when the whole input
and the whole format have been consumed, otherwise the `result` error
is returned. -/
def strptime (s f : List Char) : PR Tm :=
  match strptime_loop s f tm_zero with
  | .done sRem fRem tm e => if sRem = [] ∧ fRem = [] then .ok tm else .err e
  | .crash => .crash


lemma char_toNat_le_of_le {a b : Char} (h : a ≤ b) : a.toNat ≤ b.toNat := by
  simpa [Char.toNat, UInt32.toNat, Char.le_def, UInt32.le_def, BitVec.le_def] using h

lemma match_digits_loop_nonneg :
    ∀ (rem : List Char) (n : Nat) (ws : Bool) (acc : Int), 0 ≤ acc →
      ∀ (v : Int) (rem' : List Char),
        match_digits_loop rem n ws acc = some (v, rem') → 0 ≤ v := by
  intro rem
  induction rem with
  | nil =>
    intro n ws acc hacc v rem' h
    cases n with
    | zero =>
      simp [match_digits_loop] at h
      omega
    | succ n => simp [match_digits_loop] at h
  | cons c rest ih =>
    intro n ws acc hacc v rem' h
    cases n with
    | zero =>
      simp [match_digits_loop] at h
      omega
    | succ n =>
      by_cases hd : '0' ≤ c ∧ c ≤ '9'
      · rw [show match_digits_loop (c :: rest) (n + 1) ws acc =
            match_digits_loop rest n ws (acc * 10 + ((c.toNat : Int) - ('0'.toNat : Int)))
            from by simp [match_digits_loop, hd]] at h
        have hc0 : ('0'.toNat : Int) ≤ (c.toNat : Int) := by
          exact_mod_cast char_toNat_le_of_le hd.1
        exact ih n ws _ (by omega) v rem' h
      · by_cases hsp : c = ' ' ∧ ws
        · rw [show match_digits_loop (c :: rest) (n + 1) ws acc =
              match_digits_loop rest n ws acc from by simp [match_digits_loop, hd, hsp]] at h
          exact ih n ws acc hacc v rem' h
        · simp [match_digits_loop, hd, hsp] at h

lemma match_digits_nonneg (rem : List Char) (digits : Nat) (ws : Bool) (v : Int)
    (rem' : List Char) (h : match_digits rem digits ws = some (v, rem')) : 0 ≤ v :=
  match_digits_loop_nonneg rem digits ws 0 le_rfl v rem' h

set_option maxHeartbeats 1000000 in
lemma parse_type_z_arm (rem : List Char) (tm : Tm) : parse_type rem 'z' tm = parse_z rem tm := by
  simp only [parse_type]

/-- C2 counterexample: `strptime("b", "a")` stops at the mismatched
top-level literal and returns the initial `result` value `InvalidTime`,
not `UnexpectedCharacter('a', 'b')` as the claim requires. -/
theorem c2_counterexample :
    strptime ['b'] ['a'] = .err .InvalidTime ∧
    ParseError.InvalidTime ≠ ParseError.UnexpectedCharacter 'a' 'b' := by
  constructor
  · decide
  · decide

/-- C2 amended: whenever the walk of `strptime` reaches a configuration
whose next format character is a literal (not `%`) that differs from
the next input character, the loop breaks and the overall result is the
initial `Err(InvalidTime)` — `UnexpectedCharacter` is produced only by
`parse_char` inside specifier expansions, never by the top-level
literal comparison. -/
theorem c2_literal_mismatch_invalid_time (s f : List Char) (tm : Tm) (ch c : Char)
    (srest frest : List Char)
    (hreach : strptime_loop s f tm_zero = strptime_loop (ch :: srest) (c :: frest) tm)
    (hc : c ≠ '%') (hne : c ≠ ch) :
    strptime s f = .err .InvalidTime := by
  have hstep : strptime_loop (ch :: srest) (c :: frest) tm =
      .done (ch :: srest) frest tm .InvalidTime := by
    rw [strptime_loop.eq_def]
    dsimp only
    rw [if_neg hc, if_neg hne]
  simp only [strptime, hreach, hstep]
  simp

/-- C2 witness: the amended statement at input `"b"`, format `"a"`. -/
theorem c2_literal_mismatch_witness : strptime ['b'] ['a'] = .err .InvalidTime :=
  c2_literal_mismatch_invalid_time ['b'] ['a'] tm_zero 'b' 'a' [] [] rfl
    (by decide) (by decide)

/-- C3: `strptime` succeeds exactly when the whole input and the whole
format are consumed together (the loop ends with both remainders
empty); empty format with empty input yields the all-zero broken-down
time, while empty format with non-empty input and non-empty format with
empty input both fail with `InvalidTime`. -/
theorem c3_strptime_consumption :
    strptime [] [] = .ok tm_zero ∧
    (∀ s : List Char, s ≠ [] → strptime s [] = .err .InvalidTime) ∧
    (∀ f : List Char, f ≠ [] → strptime [] f = .err .InvalidTime) ∧
    (∀ (s f : List Char) (tm : Tm),
      strptime s f = .ok tm ↔ ∃ e, strptime_loop s f tm_zero = .done [] [] tm e) := by
  refine ⟨by decide, ?_, ?_, ?_⟩
  · rintro (_ | ⟨c, s⟩) h
    · exact absurd rfl h
    · simp [strptime, strptime_loop]
  · rintro (_ | ⟨c, f⟩) h
    · exact absurd rfl h
    · simp [strptime, strptime_loop]
  · intro s f tm
    cases hout : strptime_loop s f tm_zero with
    | crash =>
      simp only [strptime, hout]
      constructor
      · intro h
        cases h
      · rintro ⟨e', he'⟩
        cases he'
    | done sRem fRem tm' e =>
      simp only [strptime, hout]
      constructor
      · intro h
        by_cases hcond : sRem = [] ∧ fRem = []
        · rw [if_pos hcond] at h
          obtain rfl : tm' = tm := by
            cases h
            rfl
          exact ⟨e, by rw [hcond.1, hcond.2]⟩
        · rw [if_neg hcond] at h
          cases h
      · rintro ⟨e', he'⟩
        injection he' with h1 h2 h3 h4
        subst h1
        subst h2
        subst h3
        simp

/-- C3 witness: the two failing empty-side combinations. -/
theorem c3_strptime_consumption_witness :
    strptime ['x'] [] = .err .InvalidTime ∧ strptime [] ['x'] = .err .InvalidTime :=
  ⟨c3_strptime_consumption.2.1 ['x'] (by decide),
   c3_strptime_consumption.2.2.1 ['x'] (by decide)⟩

/-- C5: the `%z` match arm requires a leading `+` or `-` followed by
exactly four digits `HHMM` (anything else is `InvalidZoneOffset`), and
on success sets the UTC offset to `sign × (H×3600 + M×60)` with
`H = value/100` and `M = value mod 100` (so the digit value `0000`
yields offset 0 regardless of sign); concretely, parsing `"-0000"`
yields offset 0, `"-0800"` yields −28800, and `"+0130"` yields 5400. -/
theorem c5_zone_offset_parsing (c : Char) (rest : List Char) (tm : Tm) :
    (c ≠ '+' → c ≠ '-' → parse_z (c :: rest) tm = .err .InvalidZoneOffset) ∧
    ((c = '+' ∨ c = '-') → match_digits rest 4 false = none →
      parse_z (c :: rest) tm = .err .InvalidZoneOffset) ∧
    (∀ (v : Int) (rem' : List Char), (c = '+' ∨ c = '-') →
      match_digits rest 4 false = some (v, rem') →
      parse_z (c :: rest) tm =
        .ok ({ tm with tm_utcoff :=
          (if c = '+' then (1 : Int) else -1) * (v.tdiv 100 * 3600 + v.tmod 100 * 60) },
          rem')) ∧
    (strptime "-0000".toList "%z".toList = .ok tm_zero ∧
     strptime "-0800".toList "%z".toList = .ok { tm_zero with tm_utcoff := -28800 } ∧
     strptime "+0130".toList "%z".toList = .ok { tm_zero with tm_utcoff := 5400 }) := by
  refine ⟨?_, ?_, ?_, ?_, ?_, ?_⟩
  · intro h1 h2
    rw [parse_z.eq_def]
    dsimp only
    rw [if_neg (by rintro (h | h) <;> [exact h1 h; exact h2 h])]
  · intro hsign heq
    rw [parse_z.eq_def]
    dsimp only
    rw [if_pos hsign, heq]
  · intro v rem' hsign heq
    have hv0 : 0 ≤ v := match_digits_nonneg rest 4 false v rem' heq
    have hmod : v.tmod 100 = v - v.tdiv 100 * 100 := by
      rw [Int.tmod_def]
      ring
    rw [parse_z.eq_def]
    dsimp only
    rw [if_pos hsign, heq]
    dsimp only
    by_cases hv : v = 0
    · subst hv
      simp
    · rw [if_neg hv, hmod]
      ring_nf
  · simp only [show "-0000".toList = ['-', '0', '0', '0', '0'] from rfl,
      show "%z".toList = ['%', 'z'] from rfl]
    simp [strptime, strptime_loop, parse_type_z_arm, parse_z, match_digits,
      match_digits_loop, tm_zero]
  · simp only [show "-0800".toList = ['-', '0', '8', '0', '0'] from rfl,
      show "%z".toList = ['%', 'z'] from rfl]
    simp [strptime, strptime_loop, parse_type_z_arm, parse_z, match_digits,
      match_digits_loop, tm_zero]
    decide
  · simp only [show "+0130".toList = ['+', '0', '1', '3', '0'] from rfl,
      show "%z".toList = ['%', 'z'] from rfl]
    simp [strptime, strptime_loop, parse_type_z_arm, parse_z, match_digits,
      match_digits_loop, tm_zero]
    decide

/-- C5 witness: the success case applied at `"+0130"`. -/
theorem c5_zone_offset_parsing_witness :
    parse_z "+0130".toList tm_zero = .ok ({ tm_zero with tm_utcoff := 5400 }, []) := by
  have h := (c5_zone_offset_parsing '+' "0130".toList tm_zero).2.2.1 130 []
    (Or.inl rfl) (by decide)
  rw [show ("+0130".toList : List Char) = '+' :: "0130".toList from rfl, h]
  decide

/-- C10: the specifiers `G g s U V W +` are accepted by the validation
scan but unimplemented in match mode: `parse_type` falls to the default
arm `InvalidFormatSpecifier`, and `strptime` on a format starting with
such a specifier (with input remaining) fails with that error. -/
theorem c10_match_mode_unimplemented (c : Char)
    (hc : c ∈ (['G', 'g', 's', 'U', 'V', 'W', '+'] : List Char)) :
    is_specifier c = true ∧
    (∀ (rem : List Char) (tm : Tm), parse_type rem c tm = .err (.InvalidFormatSpecifier c)) ∧
    (∀ s : List Char, s ≠ [] → ∀ frest : List Char,
      strptime s ('%' :: c :: frest) = .err (.InvalidFormatSpecifier c)) := by
  have hpt : ∀ (rem : List Char) (tm : Tm),
      parse_type rem c tm = .err (.InvalidFormatSpecifier c) := by
    fin_cases hc <;> intro rem tm <;> simp [parse_type]
  refine ⟨by fin_cases hc <;> decide, hpt, ?_⟩
  intro s hs frest
  rcases s with _ | ⟨ch, srest⟩
  · exact absurd rfl hs
  · have hloop : strptime_loop (ch :: srest) ('%' :: c :: frest) tm_zero =
        .done (ch :: srest) frest tm_zero (.InvalidFormatSpecifier c) := by
      simp [strptime_loop, hpt]
    simp only [strptime, hloop]
    simp

/-- C10 witness: instantiation at `%G` with input `"1"`. -/
theorem c10_witness :
    is_specifier 'G' = true ∧
    parse_type ['1'] 'G' tm_zero = .err (.InvalidFormatSpecifier 'G') ∧
    strptime ['1'] ['%', 'G'] = .err (.InvalidFormatSpecifier 'G') := by
  have h := c10_match_mode_unimplemented 'G' (by decide)
  exact ⟨h.1, h.2.1 ['1'] tm_zero, h.2.2 ['1'] (by decide) []⟩


/-- Field-wise equality of two broken-down times: the derived
`PartialEq` / `Eq` on `Tm` (lib.rs line 311). -/
def tm_eq (a b : Tm) : Bool :=
  a.tm_sec == b.tm_sec && a.tm_min == b.tm_min && a.tm_hour == b.tm_hour &&
  a.tm_mday == b.tm_mday && a.tm_mon == b.tm_mon && a.tm_year == b.tm_year &&
  a.tm_wday == b.tm_wday && a.tm_yday == b.tm_yday && a.tm_isdst == b.tm_isdst &&
  a.tm_utcoff == b.tm_utcoff && a.tm_nsec == b.tm_nsec

/-- Modelled from the spec: days from the epoch 1970-01-01 to the civil
date `(y, m, d)`, proleptic Gregorian.  The calendar arithmetic itself
lives in the platform service (`rust_time_timegm` / `rust_time_mktime`,
declared in lib.rs but implemented outside src/); spec sections 1 and
4.2 fix it to the proleptic Gregorian calendar and delegate the
details to that external broken-down-time service. -/
def days_from_civil (y m d : Int) : Int :=
  let y2 := if m ≤ 2 then y - 1 else y
  let era := y2.fdiv 400
  let yoe := y2 - era * 400
  let mp := (m + 9).emod 12
  let doy := (153 * mp + 2).ediv 5 + d - 1
  let doe := yoe * 365 + yoe.ediv 4 - yoe.ediv 100 + doy
  era * 146097 + doe - 719468

/-- Modelled from the spec: `Tm::to_timespec` (lib.rs lines 434-443)
chooses UTC versus local interpretation and preserves the nanosecond
field; per spec section 4.2 the absolute seconds are the calendar
fields read as an epoch offset, minus the UTC offset (for offset zero
the two interpretations coincide).  On the source's own test vector
(2009-02-13T23:31:30 UTC) this model yields 1234567890, matching
`test_at_utc`. -/
def to_timespec_model (tm : Tm) : Timespec :=
  let fieldSecs :=
    days_from_civil (tm.tm_year + 1900) (tm.tm_mon + 1) tm.tm_mday * 86400 +
      tm.tm_hour * 3600 + tm.tm_min * 60 + tm.tm_sec
  ⟨fieldSecs - tm.tm_utcoff, tm.tm_nsec⟩

/-- The derived lexicographic `Ord` on `Timespec` (lib.rs line 79). -/
def timespec_cmp (a b : Timespec) : Ordering :=
  match compare a.sec b.sec with
  | .eq => compare a.nsec b.nsec
  | o => o

/-- The `Ord` instance of `Tm` (lib.rs lines 374-384): comparison of
the two absolute-time images. -/
def tm_cmp (a b : Tm) : Ordering :=
  timespec_cmp (to_timespec_model a) (to_timespec_model b)

/-- Broken-down time 2009-02-13T23:31:30.000054321 at UTC offset 0. -/
def tm_utc_instant : Tm :=
  ⟨30, 31, 23, 13, 1, 109, 5, 43, 0, 0, 54321⟩

/-- The same instant one zone east of UTC:
2009-02-14T00:31:30.000054321 at UTC offset +3600. -/
def tm_east_instant : Tm :=
  ⟨30, 31, 0, 14, 1, 109, 6, 44, 0, 3600, 54321⟩

/-- C9: equality of broken-down times is field-wise (all eleven fields)
while the ordering compares the absolute-time images; consequently two
representations of the same instant in different zones are equal under
the ordering yet unequal under `==`. -/
theorem c9_tm_eq_vs_ord :
    (∀ a b : Tm, tm_eq a b = true ↔ a = b) ∧
    (∀ a b : Tm, tm_cmp a b = timespec_cmp (to_timespec_model a) (to_timespec_model b)) ∧
    (tm_cmp tm_utc_instant tm_east_instant = .eq ∧
     tm_eq tm_utc_instant tm_east_instant = false) := by
  refine ⟨?_, fun a b => rfl, by decide, by decide⟩
  intro a b
  cases a
  cases b
  simp only [tm_eq, Bool.and_eq_true, beq_iff_eq, Tm.mk.injEq]
  constructor
  · intro h
    omega
  · intro h
    omega

/-- C9 witness: the field-wise characterization applied at the all-zero
broken-down time. -/
theorem c9_tm_eq_vs_ord_witness : tm_eq tm_zero tm_zero = true :=
  (c9_tm_eq_vs_ord.1 tm_zero tm_zero).mpr rfl

end TimeSpec2Proof
